import Mathlib

/-!
Verification development for the jaeger C++ tracing client's core:
the sampling engine (Const / Probabilistic / RateLimiting /
GuaranteedThroughputProbabilistic / Adaptive / RemotelyControlled
samplers) and the reporter family (Null / InMemory / Logging /
Composite), plus the IPAddress helper of utils/Net.h.

Double-precision sampling rates and clock readings are modelled as
exact rationals; the monotonic clock is an explicit `now` argument
threaded through the stateful samplers.
-/

namespace jaegertracing

/-- Tag value variant: bool / i64 / f64 / string, with f64 modelled as ℚ. -/
inductive TagValue where
  | boolT : Bool → TagValue
  | longT : Int → TagValue
  | doubleT : ℚ → TagValue
  | strT : String → TagValue
  deriving DecidableEq, Repr

/-- A sampling tag: a key and a variant value. -/
structure Tag where
  key : String
  value : TagValue
  deriving DecidableEq, Repr

/-- Key of the sampler-type tag (Constants.h: kSamplerTypeTagKey). -/
def kSamplerTypeTagKey : String := "sampler.type"

/-- Key of the sampler-param tag (Constants.h: kSamplerParamTagKey). -/
def kSamplerParamTagKey : String := "sampler.param"

/-- Result of a sampling decision: the boolean plus explanatory tags. -/
structure SamplingStatus where
  sampled : Bool
  tags : List Tag
  deriving DecidableEq, Repr

/-- 128-bit trace identifier with 64-bit halves; only `low` drives
probabilistic decisions. -/
structure TraceID where
  high : ℕ
  low : ℕ
  deriving DecidableEq, Repr

/-- Number of sampling decisions counted in a `Tag` list under a key. -/
def countKey (tags : List Tag) (k : String) : ℕ :=
  (tags.filter (fun t => t.key = k)).length

/-- Modelled from the spec: ConstSampler (implementation absent from the
sources; only SamplerTest.cpp is present). Holds the fixed decision. -/
structure ConstSampler where
  decision : Bool
  deriving DecidableEq, Repr

/-- Tags attached by ConstSampler. -/
def constTags (decision : Bool) : List Tag :=
  [⟨kSamplerTypeTagKey, TagValue.strT "const"⟩,
   ⟨kSamplerParamTagKey, TagValue.boolT decision⟩]

/-- Modelled from the spec: ConstSampler decision. -/
def ConstSampler.isSampled (s : ConstSampler) (_id : TraceID) (_op : String) :
    SamplingStatus :=
  ⟨s.decision, constTags s.decision⟩

/-- Modelled from the spec: ProbabilisticSampler (implementation absent from
the sources). Holds the sampling rate, already clamped into [0,1]. -/
structure ProbabilisticSampler where
  samplingRate : ℚ
  deriving DecidableEq, Repr

/-- Modelled from the spec: ProbabilisticSampler construction clamps a rate
outside [0,1] to the nearest endpoint and never throws. -/
def mkProbabilisticSampler (rate : ℚ) : ProbabilisticSampler :=
  ⟨max 0 (min 1 rate)⟩

/-- Modelled from the spec: the precomputed 64-bit threshold
boundary = rate * 2^64 (rate 1 admits every u64 value, rate 0 none). -/
def ProbabilisticSampler.boundary (s : ProbabilisticSampler) : ℕ :=
  (⌊s.samplingRate * 2 ^ 64⌋).toNat

/-- Tags attached by ProbabilisticSampler (also used by the probabilistic
branch of the guaranteed-throughput sampler). -/
def probabilisticTags (rate : ℚ) : List Tag :=
  [⟨kSamplerTypeTagKey, TagValue.strT "probabilistic"⟩,
   ⟨kSamplerParamTagKey, TagValue.doubleT rate⟩]

/-- Modelled from the spec: probabilistic decision
sampled = trace_id.low < boundary. -/
def ProbabilisticSampler.isSampled (s : ProbabilisticSampler) (id : TraceID)
    (_op : String) : SamplingStatus :=
  ⟨id.low < s.boundary, probabilisticTags s.samplingRate⟩

/-- Modelled from the spec: token-bucket utility (utils/RateLimiter.h is
absent from the sources). Balance stays within [0, maxBalance]; `lastTick`
is the last monotonic-clock reading. -/
structure RateLimiter where
  creditsPerSecond : ℚ
  maxBalance : ℚ
  balance : ℚ
  lastTick : ℚ
  deriving DecidableEq, Repr

/-- Modelled from the spec: a fresh token bucket starts full. -/
def mkRateLimiter (creditsPerSecond maxBalance now : ℚ) : RateLimiter :=
  ⟨creditsPerSecond, maxBalance, maxBalance, now⟩

/-- Modelled from the spec: one token-bucket decision. Refill by
elapsed * rate capped at the capacity, then spend one credit when the
balance allows it. -/
def RateLimiter.checkCredit (rl : RateLimiter) (now : ℚ) :
    Bool × RateLimiter :=
  let elapsed := now - rl.lastTick
  let balance := min rl.maxBalance (rl.balance + elapsed * rl.creditsPerSecond)
  if 1 ≤ balance then
    (true, ⟨rl.creditsPerSecond, rl.maxBalance, balance - 1, now⟩)
  else
    (false, ⟨rl.creditsPerSecond, rl.maxBalance, balance, now⟩)

/-- Modelled from the spec: RateLimitingSampler (implementation absent from
the sources), a token bucket with capacity max(rate, 1). -/
structure RateLimitingSampler where
  maxTracesPerSecond : ℚ
  rateLimiter : RateLimiter
  deriving DecidableEq, Repr

/-- Modelled from the spec: RateLimitingSampler construction; the freshly
started bucket is full, with capacity max(maxTracesPerSecond, 1). -/
def mkRateLimitingSampler (maxTracesPerSecond now : ℚ) : RateLimitingSampler :=
  ⟨maxTracesPerSecond,
   mkRateLimiter maxTracesPerSecond (max maxTracesPerSecond 1) now⟩

/-- Tags attached by RateLimitingSampler. -/
def rateLimitingTags (maxTracesPerSecond : ℚ) : List Tag :=
  [⟨kSamplerTypeTagKey, TagValue.strT "ratelimiting"⟩,
   ⟨kSamplerParamTagKey, TagValue.doubleT maxTracesPerSecond⟩]

/-- Modelled from the spec: rate-limited decision; sampled iff the bucket
grants a credit. -/
def RateLimitingSampler.isSampled (s : RateLimitingSampler) (now : ℚ)
    (_id : TraceID) (_op : String) : SamplingStatus × RateLimitingSampler :=
  let r := s.rateLimiter.checkCredit now
  (⟨r.1, rateLimitingTags s.maxTracesPerSecond⟩, ⟨s.maxTracesPerSecond, r.2⟩)

/-- Modelled from the spec: GuaranteedThroughputProbabilisticSampler
(implementation absent from the sources), composed of a probabilistic
sampler and a lower-bound token bucket with capacity max(lowerBound, 1). -/
structure GuaranteedThroughputProbabilisticSampler where
  probabilisticSampler : ProbabilisticSampler
  lowerBound : ℚ
  lowerBoundSampler : RateLimiter
  deriving DecidableEq, Repr

/-- Modelled from the spec: GuaranteedThroughputProbabilisticSampler
construction. -/
def mkGuaranteedThroughputProbabilisticSampler (lowerBound samplingRate now : ℚ) :
    GuaranteedThroughputProbabilisticSampler :=
  ⟨mkProbabilisticSampler samplingRate, lowerBound,
   mkRateLimiter lowerBound (max lowerBound 1) now⟩

/-- The probabilistic rate currently held by the composed sampler. -/
def GuaranteedThroughputProbabilisticSampler.samplingRate
    (g : GuaranteedThroughputProbabilisticSampler) : ℚ :=
  g.probabilisticSampler.samplingRate

/-- Tags attached when the lower-bound branch admits a trace. -/
def lowerBoundTags (rate : ℚ) : List Tag :=
  [⟨kSamplerTypeTagKey, TagValue.strT "lowerbound"⟩,
   ⟨kSamplerParamTagKey, TagValue.doubleT rate⟩]

/-- Modelled from the spec: guaranteed-throughput decision. Both underlying
samplers execute on every call, so the token bucket advances regardless of
the probabilistic outcome; a probabilistic admit returns the probabilistic
tags, a lower-bound admit the lowerbound tags, a double miss is unsampled
with probabilistic tags. -/
def GuaranteedThroughputProbabilisticSampler.isSampled
    (g : GuaranteedThroughputProbabilisticSampler) (now : ℚ) (id : TraceID)
    (op : String) :
    SamplingStatus × GuaranteedThroughputProbabilisticSampler :=
  let probStatus := g.probabilisticSampler.isSampled id op
  let lb := g.lowerBoundSampler.checkCredit now
  let g2 : GuaranteedThroughputProbabilisticSampler :=
    ⟨g.probabilisticSampler, g.lowerBound, lb.2⟩
  if probStatus.sampled then (probStatus, g2)
  else if lb.1 then (⟨true, lowerBoundTags g.samplingRate⟩, g2)
  else (⟨false, probabilisticTags g.samplingRate⟩, g2)

/-- Modelled from the spec: update replaces both parameters in place,
clamping a rate outside [0,1]; the token bucket is rebuilt only when the
lower bound actually changes. -/
def GuaranteedThroughputProbabilisticSampler.update
    (g : GuaranteedThroughputProbabilisticSampler) (lowerBound rate : ℚ) :
    GuaranteedThroughputProbabilisticSampler :=
  ⟨mkProbabilisticSampler rate, lowerBound,
   if lowerBound = g.lowerBound then g.lowerBoundSampler
   else mkRateLimiter lowerBound (max lowerBound 1) g.lowerBoundSampler.lastTick⟩

/-- Per-operation sampling strategies record (mirrors the thrift
PerOperationSamplingStrategies used by the tests): a default probability,
a default lower bound, and (operation, rate) pairs. -/
structure PerOperationSamplingStrategies where
  defaultSamplingProbability : ℚ
  defaultLowerBoundTracesPerSecond : ℚ
  perOperationStrategies : List (String × ℚ)
  deriving DecidableEq, Repr

/-- Modelled from the spec: AdaptiveSampler state (implementation absent
from the sources): per-operation samplers, the default probabilistic
fallback, the default lower bound and the operation cap. -/
structure AdaptiveSampler where
  samplers : List (String × GuaranteedThroughputProbabilisticSampler)
  defaultSampler : ProbabilisticSampler
  lowerBound : ℚ
  maxOperations : ℕ
  deriving DecidableEq, Repr

/-- Modelled from the spec: AdaptiveSampler construction builds one
guaranteed-throughput sampler per configured operation. -/
def mkAdaptiveSampler (strategies : PerOperationSamplingStrategies)
    (maxOperations : ℕ) (now : ℚ) : AdaptiveSampler :=
  ⟨strategies.perOperationStrategies.map (fun p =>
      (p.1, mkGuaranteedThroughputProbabilisticSampler
              strategies.defaultLowerBoundTracesPerSecond p.2 now)),
   mkProbabilisticSampler strategies.defaultSamplingProbability,
   strategies.defaultLowerBoundTracesPerSecond,
   maxOperations⟩

/-- Replace the value bound to a key in an association list, leaving the
other entries in place. -/
def updateAssoc (key : String)
    (val : GuaranteedThroughputProbabilisticSampler) :
    List (String × GuaranteedThroughputProbabilisticSampler) →
    List (String × GuaranteedThroughputProbabilisticSampler)
  | [] => []
  | p :: rest =>
    if p.1 = key then (key, val) :: rest else p :: updateAssoc key val rest

/-- Modelled from the spec: adaptive decision. A known operation delegates
to its per-operation sampler; an unknown operation inserts a fresh
guaranteed-throughput sampler and delegates while the map is below the cap;
otherwise the standalone probabilistic fallback decides and the map is
unchanged. -/
def AdaptiveSampler.isSampled (a : AdaptiveSampler) (now : ℚ) (id : TraceID)
    (op : String) : SamplingStatus × AdaptiveSampler :=
  match a.samplers.lookup op with
  | some g =>
    let r := g.isSampled now id op
    (r.1, ⟨updateAssoc op r.2 a.samplers, a.defaultSampler, a.lowerBound,
           a.maxOperations⟩)
  | none =>
    if a.samplers.length < a.maxOperations then
      let g := mkGuaranteedThroughputProbabilisticSampler a.lowerBound
                 a.defaultSampler.samplingRate now
      let r := g.isSampled now id op
      (r.1, ⟨(op, r.2) :: a.samplers, a.defaultSampler, a.lowerBound,
             a.maxOperations⟩)
    else
      (a.defaultSampler.isSampled id op, a)

/-- Modelled from the spec: the closed family of sampler variants; the
remotely-controlled sampler holds its current delegate. -/
inductive Sampler where
  | const : ConstSampler → Sampler
  | probabilistic : ProbabilisticSampler → Sampler
  | rateLimiting : RateLimitingSampler → Sampler
  | guaranteedThroughput : GuaranteedThroughputProbabilisticSampler → Sampler
  | adaptive : AdaptiveSampler → Sampler
  | remotelyControlled : Sampler → Sampler

/-- Modelled from the spec: dispatch of is_sampled over the sampler
variants, threading the mutable state; the remotely-controlled variant
delegates to its current delegate. -/
def Sampler.isSampled : Sampler → ℚ → TraceID → String →
    SamplingStatus × Sampler
  | const c, _, id, op => (c.isSampled id op, const c)
  | probabilistic p, _, id, op => (p.isSampled id op, probabilistic p)
  | rateLimiting s, now, id, op =>
    let r := s.isSampled now id op
    (r.1, rateLimiting r.2)
  | guaranteedThroughput g, now, id, op =>
    let r := g.isSampled now id op
    (r.1, guaranteedThroughput r.2)
  | adaptive a, now, id, op =>
    let r := a.isSampled now id op
    (r.1, adaptive r.2)
  | remotelyControlled d, now, id, op =>
    let r := d.isSampled now id op
    (r.1, remotelyControlled r.2)

/-- Spans are opaque to the core; only identity matters to the reporters. -/
structure Span where
  ident : ℕ
  deriving DecidableEq, Repr

/-- Modelled from the spec: the reporter variants whose behaviour is pure
state (implementations absent from the sources; only ReporterTest.cpp is
present). The logging reporter's log side effect is not modelled. -/
inductive Reporter where
  | nullR : Reporter
  | inMemory : List Span → Reporter
  | logging : Reporter
  | composite : List Reporter → Reporter

mutual

/-- Modelled from the spec: report(span). InMemory appends; Composite fans
out to each child in order, each child call completing before return. -/
def Reporter.report : Reporter → Span → Reporter
  | Reporter.nullR, _ => Reporter.nullR
  | Reporter.inMemory spans, s => Reporter.inMemory (spans ++ [s])
  | Reporter.logging, _ => Reporter.logging
  | Reporter.composite rs, s => Reporter.composite (Reporter.reportList rs s)

/-- Fan a span out to an ordered list of child reporters. -/
def Reporter.reportList : List Reporter → Span → List Reporter
  | [], _ => []
  | r :: rs, s => r.report s :: Reporter.reportList rs s

end

/-- Modelled from the spec: InMemoryReporter counts every span reported
since construction or the last reset. -/
def Reporter.spansSubmitted : Reporter → ℕ
  | Reporter.inMemory spans => spans.length
  | _ => 0

/-- Modelled from the spec: reset clears the in-memory reporter's spans. -/
def Reporter.reset : Reporter → Reporter
  | Reporter.inMemory _ => Reporter.inMemory []
  | r => r

end jaegertracing

namespace uber.jaeger.utils.net

/-- The AF_INET address-family constant. -/
def AF_INET : ℕ := 2

/-- A sockaddr_in as observable after IPAddress::v4: family, port and the
32-bit sin_addr value (zero-filled by memset unless inet_pton wrote it). -/
structure SockAddrIn where
  sinFamily : ℕ
  sinPort : ℕ
  sinAddr : ℕ
  deriving DecidableEq, Repr

/-- Outcome of IPAddress::v4: a constructed address, or one of the two
exceptions the source can throw. -/
inductive V4Result where
  | ok : SockAddrIn → V4Result
  | invalidArgumentError : String → V4Result
  | systemError : String → V4Result
  deriving DecidableEq, Repr

/-- Shallow embedding of IPAddress::v4 (utils/Net.h lines 48-71). The call
to inet_pton is abstracted by its return code and, on success, by the
parsed address it writes; the source zero-fills the sockaddr, sets family
and port, then branches on the return code exactly as embedded here: the
invalid_argument throw is guarded by returnCode == 0 inside a block entered
only when returnCode < 0. -/
def IPAddress.v4 (ptonReturnCode : Int) (ptonParsedAddr : ℕ) (ip : String)
    (port : ℕ) : V4Result :=
  let sinAddr := if ptonReturnCode = 1 then ptonParsedAddr else 0
  if ptonReturnCode < 0 then
    if ptonReturnCode = 0 then
      V4Result.invalidArgumentError ("Invalid IP address, ip=" ++ ip)
    else
      V4Result.systemError ("Failed to parse IP address (inet_pton), ip=" ++ ip)
  else V4Result.ok ⟨AF_INET, port, sinAddr⟩

end uber.jaeger.utils.net

namespace jaegertracing

/-- C6: constructing a ProbabilisticSampler with a rate outside [0,1] does
not fail; the rate is clamped to the nearest endpoint so samplingRate lies
in [0,1]; in particular rates -0.1 and 1.1 are clamped to 0 and 1. -/
theorem probabilisticSampler_clamps_rate :
    (∀ r : ℚ, 0 ≤ (mkProbabilisticSampler r).samplingRate ∧
      (mkProbabilisticSampler r).samplingRate ≤ 1) ∧
    (mkProbabilisticSampler (-1/10)).samplingRate = 0 ∧
    (mkProbabilisticSampler (11/10)).samplingRate = 1 := by
  refine ⟨fun r => ⟨le_max_left _ _, ?_⟩, by norm_num [mkProbabilisticSampler],
    by norm_num [mkProbabilisticSampler]⟩
  exact max_le (by norm_num) (min_le_left _ _)

/-- C7: update on the guaranteed-throughput sampler replaces both
parameters in place, clamping a rate outside [0,1]; concretely, a sampler
built with (2.0, 0.5) updated to (1.0, 0.6) reports lowerBound 1.0 and
rate 0.6, and a further update to (1.0, 1.1) clamps the rate to 1.0. -/
theorem gtp_update_replaces_parameters :
    (∀ (g : GuaranteedThroughputProbabilisticSampler) (lb r : ℚ),
      (g.update lb r).lowerBound = lb ∧
      (g.update lb r).samplingRate = max 0 (min 1 r)) ∧
    ((mkGuaranteedThroughputProbabilisticSampler 2 (1/2) 0).lowerBound = 2 ∧
     (mkGuaranteedThroughputProbabilisticSampler 2 (1/2) 0).samplingRate = 1/2 ∧
     ((mkGuaranteedThroughputProbabilisticSampler 2 (1/2) 0).update 1
        (6/10)).lowerBound = 1 ∧
     ((mkGuaranteedThroughputProbabilisticSampler 2 (1/2) 0).update 1
        (6/10)).samplingRate = 6/10 ∧
     (((mkGuaranteedThroughputProbabilisticSampler 2 (1/2) 0).update 1
        (6/10)).update 1 (11/10)).samplingRate = 1) := by
  constructor
  · intro g lb r
    exact ⟨rfl, rfl⟩
  · refine ⟨rfl, ?_, rfl, ?_, ?_⟩ <;>
      norm_num [mkGuaranteedThroughputProbabilisticSampler,
        GuaranteedThroughputProbabilisticSampler.update,
        GuaranteedThroughputProbabilisticSampler.samplingRate,
        mkProbabilisticSampler]

/-- C5: a fresh RateLimitingSampler(2) answers true, true, false on three
immediately successive calls, and a fresh RateLimitingSampler(0.1) answers
true, false; the bucket has capacity max(rate, 1), starts full, refills by
elapsed * rate capped at the capacity, and admits (consuming one credit)
exactly when the refilled balance reaches 1. -/
theorem rateLimitingSampler_fresh_bucket :
    (∀ r now : ℚ,
      (mkRateLimitingSampler r now).rateLimiter.maxBalance = max r 1 ∧
      (mkRateLimitingSampler r now).rateLimiter.balance = max r 1) ∧
    (∀ (s : RateLimitingSampler) (now : ℚ) (id : TraceID) (op : String),
      ((s.isSampled now id op).1.sampled = true ↔
        1 ≤ min s.rateLimiter.maxBalance (s.rateLimiter.balance +
          (now - s.rateLimiter.lastTick) * s.rateLimiter.creditsPerSecond))) ∧
    (((mkRateLimitingSampler 2 0).isSampled 0 ⟨0, 0⟩ "op").1.sampled = true ∧
     (((mkRateLimitingSampler 2 0).isSampled 0 ⟨0, 0⟩ "op").2.isSampled 0
        ⟨0, 0⟩ "op").1.sampled = true ∧
     ((((mkRateLimitingSampler 2 0).isSampled 0 ⟨0, 0⟩ "op").2.isSampled 0
        ⟨0, 0⟩ "op").2.isSampled 0 ⟨0, 0⟩ "op").1.sampled = false) ∧
    (((mkRateLimitingSampler (1/10) 0).isSampled 0 ⟨0, 0⟩ "op").1.sampled =
        true ∧
     (((mkRateLimitingSampler (1/10) 0).isSampled 0 ⟨0, 0⟩ "op").2.isSampled 0
        ⟨0, 0⟩ "op").1.sampled = false) := by
  refine ⟨fun r now => ⟨rfl, rfl⟩, ?_, ?_, ?_⟩
  · intro s now id op
    simp only [RateLimitingSampler.isSampled, RateLimiter.checkCredit]
    split
    · next h => simpa using h
    · next h => simpa using h
  · norm_num [mkRateLimitingSampler, mkRateLimiter,
      RateLimitingSampler.isSampled, RateLimiter.checkCredit]
  · norm_num [mkRateLimitingSampler, mkRateLimiter,
      RateLimitingSampler.isSampled, RateLimiter.checkCredit]

/-- C1: for a rate r in [0,1], the probabilistic decision admits precisely
the trace ids whose low half is below the floor of r * 2^64; for r = 0.5
the boundary is 2^63; the tags are the probabilistic pair carrying r. -/
theorem probabilisticSampler_threshold (r : ℚ) (h0 : 0 ≤ r) (h1 : r ≤ 1)
    (id : TraceID) (op : String) :
    (((mkProbabilisticSampler r).isSampled id op).sampled = true ↔
      (id.low : ℤ) < ⌊r * 2 ^ 64⌋) ∧
    (mkProbabilisticSampler (1/2)).boundary = 2 ^ 63 ∧
    ((mkProbabilisticSampler r).isSampled id op).tags =
      [⟨kSamplerTypeTagKey, TagValue.strT "probabilistic"⟩,
       ⟨kSamplerParamTagKey, TagValue.doubleT r⟩] := by
  have hclamp : mkProbabilisticSampler r = ⟨r⟩ := by
    unfold mkProbabilisticSampler
    rw [min_eq_right h1, max_eq_right h0]
  refine ⟨?_, ?_, ?_⟩
  · rw [hclamp]
    simp only [ProbabilisticSampler.isSampled, ProbabilisticSampler.boundary,
      decide_eq_true_eq]
    exact Int.lt_toNat
  · norm_num [mkProbabilisticSampler, ProbabilisticSampler.boundary]
    rfl
  · rw [hclamp]
    rfl

/-- Witness for C1 at r = 1/2 and trace id low = 2^63 - 20. -/
theorem probabilisticSampler_threshold_witness :
    (0 : ℚ) ≤ 1/2 ∧ (1/2 : ℚ) ≤ 1 ∧
    ((mkProbabilisticSampler (1/2)).isSampled ⟨0, 2 ^ 63 - 20⟩ "op").sampled =
      true :=
  ⟨by norm_num, by norm_num,
   (probabilisticSampler_threshold (1/2) (by norm_num) (by norm_num)
      ⟨0, 2 ^ 63 - 20⟩ "op").1.mpr (by norm_num)⟩

/-- C3: both embedded samplers execute on every guaranteed-throughput
decision (the returned state always carries the stepped token bucket,
whatever the probabilistic outcome); concretely, with lowerBound 1.0 and
rate 0.5, a lower-bound admit (probabilistic miss) followed by a
probabilistic admit leaves the bucket exhausted, so repeating the
probabilistic-miss call is not sampled. -/
theorem gtp_executes_both_branches :
    (∀ (g : GuaranteedThroughputProbabilisticSampler) (now : ℚ)
       (id : TraceID) (op : String),
      ((g.isSampled now id op).2).lowerBoundSampler =
        (g.lowerBoundSampler.checkCredit now).2 ∧
      ((g.isSampled now id op).2).probabilisticSampler =
        g.probabilisticSampler) ∧
    (((mkGuaranteedThroughputProbabilisticSampler 1 (1/2) 0).isSampled 0
        ⟨0, 2 ^ 63 + 10⟩ "op").1 =
      ⟨true, lowerBoundTags (1/2)⟩ ∧
     (((mkGuaranteedThroughputProbabilisticSampler 1 (1/2) 0).isSampled 0
        ⟨0, 2 ^ 63 + 10⟩ "op").2.isSampled 0 ⟨0, 2 ^ 63 - 20⟩ "op").1 =
      ⟨true, probabilisticTags (1/2)⟩ ∧
     ((((mkGuaranteedThroughputProbabilisticSampler 1 (1/2) 0).isSampled 0
        ⟨0, 2 ^ 63 + 10⟩ "op").2.isSampled 0 ⟨0, 2 ^ 63 - 20⟩ "op").2.isSampled
        0 ⟨0, 2 ^ 63 + 10⟩ "op").1.sampled = false) := by
  constructor
  · intro g now id op
    simp only [GuaranteedThroughputProbabilisticSampler.isSampled]
    split
    · exact ⟨rfl, rfl⟩
    · split
      · exact ⟨rfl, rfl⟩
      · exact ⟨rfl, rfl⟩
  · norm_num [mkGuaranteedThroughputProbabilisticSampler,
      GuaranteedThroughputProbabilisticSampler.isSampled,
      GuaranteedThroughputProbabilisticSampler.samplingRate,
      mkProbabilisticSampler, ProbabilisticSampler.isSampled,
      ProbabilisticSampler.boundary, mkRateLimiter, RateLimiter.checkCredit,
      probabilisticTags, lowerBoundTags]

/-- Fanning a span out over in-memory children appends it to every child. -/
theorem Reporter.reportList_map_inMemory (children : List (List Span))
    (s : Span) :
    Reporter.reportList (children.map Reporter.inMemory) s =
      (children.map (fun c => c ++ [s])).map Reporter.inMemory := by
  induction children with
  | nil => rfl
  | cons c cs ih =>
    simp only [List.map_cons, Reporter.reportList, Reporter.report, ih]

/-- C9: a composite report hands the span to each child exactly once, in
order, so every in-memory child's submitted count advances by one; the
in-memory counter counts each reported span and reset returns it to 0. -/
theorem compositeReporter_fanout :
    (∀ (children : List (List Span)) (s : Span),
      (Reporter.composite (children.map Reporter.inMemory)).report s =
        Reporter.composite
          ((children.map (fun c => c ++ [s])).map Reporter.inMemory)) ∧
    (∀ (spans : List Span) (s : Span),
      ((Reporter.inMemory spans).report s).spansSubmitted =
        (Reporter.inMemory spans).spansSubmitted + 1) ∧
    (∀ spans : List Span,
      ((Reporter.inMemory spans).reset).spansSubmitted = 0) ∧
    ((Reporter.composite [Reporter.inMemory [], Reporter.inMemory []]).report
        ⟨0⟩ =
      Reporter.composite [Reporter.inMemory [⟨0⟩], Reporter.inMemory [⟨0⟩]] ∧
     (Reporter.inMemory [(⟨0⟩ : Span)]).spansSubmitted = 1) := by
  refine ⟨fun children s => ?_, fun spans s => ?_, fun spans => rfl,
    ⟨rfl, rfl⟩⟩
  · simp only [Reporter.report, Reporter.reportList_map_inMemory]
  · simp [Reporter.report, Reporter.spansSubmitted]

/-- Replacing an existing binding leaves the association-list length
unchanged. -/
theorem updateAssoc_length (key : String)
    (val : GuaranteedThroughputProbabilisticSampler)
    (l : List (String × GuaranteedThroughputProbabilisticSampler)) :
    (updateAssoc key val l).length = l.length := by
  induction l with
  | nil => rfl
  | cons p rest ih =>
    simp only [updateAssoc]
    split <;> simp [ih]

/-- C8: the adaptive sampler never grows beyond max_operations entries: a
known operation delegates to its per-operation sampler in place, an
unknown one is inserted with the default parameters and delegated to only
below the cap, and otherwise the standalone probabilistic fallback decides
and the map is unchanged. -/
theorem adaptiveSampler_operation_bound (a : AdaptiveSampler) (now : ℚ)
    (id : TraceID) (op : String)
    (h : a.samplers.length ≤ a.maxOperations) :
    ((a.isSampled now id op).2.samplers.length ≤ a.maxOperations) ∧
    (∀ g, a.samplers.lookup op = some g →
      (a.isSampled now id op).1 = (g.isSampled now id op).1 ∧
      (a.isSampled now id op).2.samplers =
        updateAssoc op (g.isSampled now id op).2 a.samplers) ∧
    (a.samplers.lookup op = none →
      a.samplers.length < a.maxOperations →
      (a.isSampled now id op).1 =
        ((mkGuaranteedThroughputProbabilisticSampler a.lowerBound
            a.defaultSampler.samplingRate now).isSampled now id op).1 ∧
      (a.isSampled now id op).2.samplers =
        (op, ((mkGuaranteedThroughputProbabilisticSampler a.lowerBound
            a.defaultSampler.samplingRate now).isSampled now id op).2) ::
          a.samplers) ∧
    (a.samplers.lookup op = none →
      a.maxOperations ≤ a.samplers.length →
      (a.isSampled now id op).1 = a.defaultSampler.isSampled id op ∧
      (a.isSampled now id op).2 = a) := by
  cases hl : a.samplers.lookup op with
  | some g =>
    refine ⟨?_, ?_, ?_, ?_⟩
    · simp [AdaptiveSampler.isSampled, hl, updateAssoc_length, h]
    · intro g2 hg2
      cases hg2
      exact ⟨by simp [AdaptiveSampler.isSampled, hl],
        by simp [AdaptiveSampler.isSampled, hl]⟩
    · intro hnone
      cases hnone
    · intro hnone
      cases hnone
  | none =>
    by_cases hlt : a.samplers.length < a.maxOperations
    · refine ⟨?_, ?_, ?_, ?_⟩
      · simp only [AdaptiveSampler.isSampled, hl, hlt, if_pos]
        simpa using hlt
      · intro g2 hg2
        cases hg2
      · intro _ _
        exact ⟨by simp [AdaptiveSampler.isSampled, hl, hlt],
          by simp [AdaptiveSampler.isSampled, hl, hlt]⟩
      · intro _ hge
        omega
    · refine ⟨?_, ?_, ?_, ?_⟩
      · simp [AdaptiveSampler.isSampled, hl, hlt, h]
      · intro g2 hg2
        cases hg2
      · intro _ hlt2
        exact absurd hlt2 hlt
      · intro _ _
        exact ⟨by simp [AdaptiveSampler.isSampled, hl, hlt],
          by simp [AdaptiveSampler.isSampled, hl, hlt]⟩

/-- Witness for C8: an adaptive sampler at its cap (one operation, cap 1)
decides a first-time operation without growing the map. -/
theorem adaptiveSampler_operation_bound_witness :
    (mkAdaptiveSampler ⟨1/2, 1, [("op", 1/2)]⟩ 1 0).samplers.length ≤ 1 ∧
    ((mkAdaptiveSampler ⟨1/2, 1, [("op", 1/2)]⟩ 1 0).isSampled 0 ⟨0, 0⟩
        "firstTimeOp").2.samplers.length ≤ 1 :=
  ⟨by simp [mkAdaptiveSampler],
   (adaptiveSampler_operation_bound
      (mkAdaptiveSampler ⟨1/2, 1, [("op", 1/2)]⟩ 1 0) 0 ⟨0, 0⟩ "firstTimeOp"
      (by simp [mkAdaptiveSampler])).1⟩

/-- The guaranteed-throughput decision always carries a two-element tag
list whose sampler type is probabilistic or lowerbound. -/
theorem gtp_tags_shape (g : GuaranteedThroughputProbabilisticSampler)
    (now : ℚ) (id : TraceID) (op : String) :
    ∃ ty v, ((g.isSampled now id op).1).tags =
      [⟨kSamplerTypeTagKey, TagValue.strT ty⟩, ⟨kSamplerParamTagKey, v⟩] ∧
      (ty = "probabilistic" ∨ ty = "lowerbound") := by
  simp only [GuaranteedThroughputProbabilisticSampler.isSampled]
  split
  · exact ⟨"probabilistic",
      TagValue.doubleT g.probabilisticSampler.samplingRate, rfl, Or.inl rfl⟩
  · split
    · exact ⟨"lowerbound", TagValue.doubleT g.samplingRate, rfl, Or.inr rfl⟩
    · exact ⟨"probabilistic", TagValue.doubleT g.samplingRate, rfl,
        Or.inl rfl⟩

/-- The adaptive decision always carries a two-element tag list whose
sampler type is probabilistic or lowerbound. -/
theorem adaptive_tags_shape (a : AdaptiveSampler) (now : ℚ) (id : TraceID)
    (op : String) :
    ∃ ty v, ((a.isSampled now id op).1).tags =
      [⟨kSamplerTypeTagKey, TagValue.strT ty⟩, ⟨kSamplerParamTagKey, v⟩] ∧
      (ty = "probabilistic" ∨ ty = "lowerbound") := by
  cases hl : a.samplers.lookup op with
  | some g =>
    have h := gtp_tags_shape g now id op
    simpa [AdaptiveSampler.isSampled, hl] using h
  | none =>
    by_cases hlt : a.samplers.length < a.maxOperations
    · have h := gtp_tags_shape (mkGuaranteedThroughputProbabilisticSampler
        a.lowerBound a.defaultSampler.samplingRate now) now id op
      simpa [AdaptiveSampler.isSampled, hl, hlt] using h
    · refine ⟨"probabilistic", TagValue.doubleT a.defaultSampler.samplingRate,
        ?_, Or.inl rfl⟩
      simp [AdaptiveSampler.isSampled, hl, hlt, ProbabilisticSampler.isSampled,
        probabilisticTags]

/-- C4: every sampler variant, on every input, produces tags holding
exactly one sampler.type entry and exactly one sampler.param entry, the
type value being one of the four variant literals. -/
theorem sampler_tags_invariant (s : Sampler) (now : ℚ) (id : TraceID)
    (op : String) :
    countKey ((s.isSampled now id op).1.tags) kSamplerTypeTagKey = 1 ∧
    countKey ((s.isSampled now id op).1.tags) kSamplerParamTagKey = 1 ∧
    ∃ ty v, (s.isSampled now id op).1.tags =
      [⟨kSamplerTypeTagKey, TagValue.strT ty⟩, ⟨kSamplerParamTagKey, v⟩] ∧
      ty ∈ ["const", "probabilistic", "ratelimiting", "lowerbound"] := by
  have hshape : ∃ ty v, (s.isSampled now id op).1.tags =
      [⟨kSamplerTypeTagKey, TagValue.strT ty⟩, ⟨kSamplerParamTagKey, v⟩] ∧
      ty ∈ ["const", "probabilistic", "ratelimiting", "lowerbound"] := by
    induction s with
    | const c =>
      exact ⟨"const", TagValue.boolT c.decision, rfl, by simp⟩
    | probabilistic p =>
      exact ⟨"probabilistic", TagValue.doubleT p.samplingRate, rfl, by simp⟩
    | rateLimiting rs =>
      exact ⟨"ratelimiting", TagValue.doubleT rs.maxTracesPerSecond, rfl,
        by simp⟩
    | guaranteedThroughput g =>
      obtain ⟨ty, v, htags, hty⟩ := gtp_tags_shape g now id op
      refine ⟨ty, v, by simpa [Sampler.isSampled] using htags, ?_⟩
      rcases hty with h | h <;> simp [h]
    | adaptive a =>
      obtain ⟨ty, v, htags, hty⟩ := adaptive_tags_shape a now id op
      refine ⟨ty, v, by simpa [Sampler.isSampled] using htags, ?_⟩
      rcases hty with h | h <;> simp [h]
    | remotelyControlled d ih =>
      obtain ⟨ty, v, htags, hty⟩ := ih
      exact ⟨ty, v, by simpa [Sampler.isSampled] using htags, hty⟩
  obtain ⟨ty, v, htags, hty⟩ := hshape
  rw [htags]
  exact ⟨by simp [countKey, kSamplerTypeTagKey, kSamplerParamTagKey],
    by simp [countKey, kSamplerTypeTagKey, kSamplerParamTagKey],
    ty, v, rfl, hty⟩

end jaegertracing

namespace uber.jaeger.utils.net

/-- C10: the invalid_argument branch of IPAddress::v4 is unreachable for
every inet_pton return code, because it tests returnCode == 0 inside a
block entered only when returnCode < 0; a malformed ip string (return
code 0) therefore yields a zero-filled IPv4 address carrying the given
port instead of throwing. -/
theorem ipAddress_v4_invalid_branch_unreachable :
    (∀ (rc : Int) (a : ℕ) (ip : String) (port : ℕ) (msg : String),
      IPAddress.v4 rc a ip port ≠ V4Result.invalidArgumentError msg) ∧
    (∀ (a : ℕ) (ip : String) (port : ℕ),
      IPAddress.v4 0 a ip port = V4Result.ok ⟨AF_INET, port, 0⟩) := by
  constructor
  · intro rc a ip port msg
    by_cases h1 : rc = 1 <;> by_cases h2 : rc < 0 <;> by_cases h3 : rc = 0 <;>
      simp [IPAddress.v4, h1, h2, h3]
  · intro a ip port
    simp [IPAddress.v4]

end uber.jaeger.utils.net
